import Mathlib

/-!
# PhotOrganiser — shallow embedding and verification

A shallow embedding in Lean 4 of `src/photOrganiser.py` (PhoTools), with
theorems settling the frozen claims about its specification.

Modelling conventions:
* Python strings are `List Char` (ASCII fragment of Python's Unicode
  semantics: `str.upper`/`str.lower` are modelled by `Char.toUpper` /
  `Char.toLower`, `\d` by `Char.isDigit`).
* Filesystem paths are `List (List Char)`: the list of path components;
  the file name is the last component.  `Path.resolve` on the already
  absolute paths produced here is the identity.
* Effects (the `exiv2` child process, `Path.mkdir`, `shutil.move`,
  `uuid.uuid4`) are supplied by oracle functions, so every function is
  pure and executable; the world state threaded through is the log file
  plus counters of mutating filesystem calls and performed moves.
-/

namespace PhotOrganiser

/-- Python `str.split()` whitespace (ASCII fragment): space, tab, newline,
carriage return, vertical tab, form feed. -/
def isWsChar (c : Char) : Bool :=
  c = ' ' || c = '\t' || c = '\n' || c = '\r' || c = '\x0b' || c = '\x0c'

/-- Helper for `pySplitWs`: accumulates the current (reversed) field. -/
def splitWsAux : List Char → List Char → List (List Char)
  | [], acc => if acc = [] then [] else [acc.reverse]
  | c :: rest, acc =>
    if isWsChar c then
      if acc = [] then splitWsAux rest [] else acc.reverse :: splitWsAux rest []
    else
      splitWsAux rest (c :: acc)

/-- Python `str.split()` with no argument: maximal runs of non-whitespace,
no empty fields. -/
def pySplitWs (l : List Char) : List (List Char) :=
  splitWsAux l []

/-- Python `" ".join(fields)`. -/
def joinSp (fields : List (List Char)) : List Char :=
  List.intercalate [' '] fields

/-- Python `str.upper()` (ASCII model). -/
def pyUpper (l : List Char) : List Char :=
  l.map Char.toUpper

/-- Line 85 of `src/photOrganiser.py`: a stdout line of the metadata tool is
parsed as `" ".join(item.split()[3:])`. -/
def parseLine (line : List Char) : List Char :=
  joinSp ((pySplitWs line).drop 3)

/-! ## The date regex

`find_target_tags` uses `re.search(r"(?i)date.*(\d{4}?)", tag, re.IGNORECASE)`.
`re.search` takes the leftmost start position at which the whole pattern
matches; the pattern starts with the literal `date` (case-insensitive), `.*`
is greedy and does not cross `'\n'`, and `(\d{4}?)` is four digits (a lazy
modifier on an exact count is a no-op).  Hence: at the first occurrence of
`date` that is followed — within the newline-free stretch after it — by a
window of four consecutive digits, the group captures the **last** such
window (greedy `.*` backtracks minimally from the right). -/

/-- Does the list start with `date`, case-insensitively? -/
def startsWithDate : List Char → Bool
  | d :: a :: t :: e :: _ =>
    d.toLower = 'd' && a.toLower = 'a' && t.toLower = 't' && e.toLower = 'e'
  | _ => false

/-- The last window of four consecutive digits in the list, if any. -/
def lastWindow : List Char → Option (List Char)
  | a :: b :: c :: d :: rest =>
    match lastWindow (b :: c :: d :: rest) with
    | some w => some w
    | none =>
      if a.isDigit && b.isDigit && c.isDigit && d.isDigit then
        some [a, b, c, d]
      else none
  | _ => none

/-- The part of the list before the first `'\n'` (the stretch `.*` can
match into). -/
def untilNewline (l : List Char) : List Char :=
  l.takeWhile (fun c => c ≠ '\n')

/-- Model of `re.search(r"(?i)date.*(\d{4}?)", s)`: the captured group, if the
pattern matches anywhere in `s`. -/
def reSearchDate : List Char → Option (List Char)
  | [] => none
  | c :: rest =>
    if startsWithDate (c :: rest) then
      match lastWindow (untilNewline ((c :: rest).drop 4)) with
      | some w => some w
      | none => reSearchDate rest
    else reSearchDate rest

/-! ## Data model -/

/-- A filesystem path as its list of components; the name is the last one. -/
abbrev FsPath := List (List Char)

/-- The record appended per file by `_get_iptc_keywords` (line 86). -/
structure TagRead where
  file_path : FsPath
  tags : List (List Char)
  errors : List Char
deriving DecidableEq, Repr

/-- The record appended per file by `find_target_tags` (lines 102–108). -/
structure MatchResult where
  file_path : FsPath
  toi : Option (List Char)
  errors : List Char
deriving DecidableEq, Repr

/-! ## Tag Matcher (`find_target_tags`, lines 92–109)

The Python loop body assigns the local variable `match` inside the inner
`for tag in f["tags"]` loop.  That variable is **function-scoped**: a file
whose tag list is empty leaves it at the value from the previous file, and
if there is no previous assignment, evaluating `match` raises
`UnboundLocalError` (uncaught by `execute`, which only catches
`FileNotFoundError` and `ValueError`).  The embedding threads the variable
explicitly as `Option (Option token)`: `none` = unbound. -/

/-- The inner `for tag in f["tags"]: match = re.search(...); if match: break`
loop: returns the state of the `match` variable afterwards. -/
def scanTags : List (List Char) → Option (Option (List Char)) → Option (Option (List Char))
  | [], mv => mv
  | t :: rest, _ =>
    match reSearchDate t with
    | some tok => some (some tok)
    | none => scanTags rest (some none)

/-- The outer `for f in files` loop of `find_target_tags`, threading the
`match` variable; `Except.error ()` models the `UnboundLocalError`. -/
def fttLoop : List TagRead → Option (Option (List Char)) → Except Unit (List MatchResult)
  | [], _ => Except.ok []
  | f :: rest, mv =>
    match scanTags f.tags mv with
    | none => Except.error ()
    | some m =>
      match fttLoop rest (some m) with
      | Except.ok rs =>
        Except.ok ({ file_path := f.file_path, toi := m, errors := [] } :: rs)
      | Except.error e => Except.error e

/-- Embedding of `find_target_tags(files, tag_info_search)` (lines 92–109): the whole
body is guarded by `tag_info_search == "YEAR"`; otherwise the empty result
list is returned unchanged. -/
def find_target_tags (files : List TagRead) (tag_info_search : List Char) :
    Except Unit (List MatchResult) :=
  if tag_info_search = ("YEAR").data then fttLoop files none
  else Except.ok []

/-- Spec-side definition (section 4.3 / glossary "First-match-wins"): the
token of a file is computed from that file's own tags alone — the first tag
whose pattern matches wins, `none` if no tag matches. -/
def firstMatchToken : List (List Char) → Option (List Char)
  | [] => none
  | t :: rest =>
    match reSearchDate t with
    | some tok => some tok
    | none => firstMatchToken rest

example : reSearchDate ("Location DATE: 1984 Paris").data = some ("1984").data := by decide
example : reSearchDate ("DATE 2000x").data = some ("2000").data := by decide
example : reSearchDate ("DATE 19841985").data = some ("1985").data := by decide
example : reSearchDate ("date x\ndate 1984").data = some ("1984").data := by decide
example : reSearchDate ("DATE 123").data = none := by decide
example : reSearchDate ("date\n1984").data = none := by decide
example : parseLine ("Iptc.Application2.Keywords String 16 Location DATE: 1984 Paris").data
    = ("Location DATE: 1984 Paris").data := by decide
example : parseLine ("a b c").data = [] := by decide

/-! ## File Discovery (`_get_files`, lines 59–68)

`root_dir.rglob("*")` with the `is_file()` filter yields the regular files
of the subtree; the embedding takes that list as input and performs the
classification loop.  `p.suffix` is CPython `pathlib.PurePath.suffix`:
`name[i:]` for `i = name.rfind('.')` when `0 < i < len(name) - 1`, else
the empty string. -/

/-- Index of the last `'.'` in the list (`str.rfind('.')`), if any. -/
def rfindDot : List Char → Option Nat
  | [] => none
  | c :: rest =>
    match rfindDot rest with
    | some i => some (i + 1)
    | none => if c = '.' then some 0 else none

/-- Model of `pathlib.PurePath.suffix` applied to a file name. -/
def pySuffix (name : List Char) : List Char :=
  match rfindDot name with
  | some i => if 0 < i ∧ i < name.length - 1 then name.drop i else []
  | none => []

/-- Python `str.strip(".")`: remove leading and trailing `'.'` characters. -/
def stripDots (l : List Char) : List Char :=
  ((l.dropWhile (fun c => c = '.')).reverse.dropWhile (fun c => c = '.')).reverse

/-- The allow-list `AVAILABLE_FILE_TYPES.ALL` (lines 44–50). -/
def FILE_TYPES_ALL : List (List Char) :=
  [("JPG").data, ("JPEG").data, ("TIF").data, ("TIFF").data, ("PNG").data]

/-- The file name (last path component). -/
def baseName (p : FsPath) : List Char :=
  p.getLastD []

/-- Line 64: `p.suffix.upper().strip(".") in AVAILABLE_FILE_TYPES.ALL`. -/
def isSupported (p : FsPath) : Bool :=
  stripDots (pyUpper (pySuffix (baseName p))) ∈ FILE_TYPES_ALL

/-- Drop a single leading `'.'` (turn a pathlib suffix into the bare
extension). -/
def extOfSuffix : List Char → List Char
  | [] => []
  | c :: rest => if c = '.' then rest else c :: rest

/-- Spec-side definition (section 4.1 / claim C7): a file is included iff
its extension matches the fixed allow-list case-insensitively. -/
def specSupportedExt (p : FsPath) : Bool :=
  pyUpper (extOfSuffix (pySuffix (baseName p))) ∈ FILE_TYPES_ALL

/-- Embedding of `_get_files` (lines 59–68) on the list of regular files the `rglob`
walk found: the classification loop appends each file to exactly one of
`valid_paths` / `excluded_paths`. -/
def _get_files (found : List FsPath) : List FsPath × List FsPath :=
  (found.filter (fun p => isSupported p), found.filter (fun p => ¬ isSupported p))

/-! ## Metadata Reader (`_get_iptc_keywords`, lines 71–89) -/

/-- What the `exiv2 -PI` child process produced for one file: the lines of
its standard output (`read.stdout.splitlines()`) and its standard error. -/
structure ToolOut where
  lines : List (List Char)
  stderr : List Char
deriving DecidableEq, Repr

/-- Embedding of `_get_iptc_keywords` (lines 71–89): one record per file, tags parsed
per line by `" ".join(item.split()[3:])`, stderr recorded verbatim. -/
def _get_iptc_keywords (file_paths : List FsPath) (tool : FsPath → ToolOut) :
    List TagRead :=
  file_paths.map fun f =>
    { file_path := f, tags := ((tool f).lines).map parseLine, errors := (tool f).stderr }

/-! ## Mover (`_move_images`, lines 112–142) -/

/-- A success record (line 133–135). -/
structure MoveSuccess where
  new_filepath : FsPath
  old_filepath : FsPath
deriving DecidableEq, Repr

/-- A failure record (line 139). -/
structure MoveError where
  old_filepath : FsPath
  error : List Char
deriving DecidableEq, Repr

/-- What the filesystem does for one image's iteration of the move loop:
`preExc` = an exception at `Path(img["toi"])` / `mkdir` (outer `except`),
`moved` = `shutil.move` succeeds, `collision` = `shutil.move` raises
`shutil.Error` (destination already exists; inner `except`), `moveExc` =
any other exception from the move (outer `except`). -/
inductive FsOut where
  | preExc (err : List Char)
  | moved
  | collision
  | moveExc (err : List Char)
deriving DecidableEq, Repr

/-- Observable world state: the log file's entries, a count of mutating
filesystem calls attempted (`mkdir`, `shutil.move`), and the list of
performed moves as (old path, new path) pairs. -/
structure World where
  log : List (List Char)
  mutations : Nat
  moves : List (FsPath × FsPath)
deriving DecidableEq, Repr

/-- The log message of line 137. -/
def collisionMsg : List Char := ("File already exists as this path. Not moving.").data

/-- The folder name "unorganised" (line 121). -/
def unorganisedName : List Char := ("unorganised").data

/-- Lines 118–122: `root_dir / Path(img["toi"]) if img["toi"] else
root_dir / Path("unorganised")` (Python truthiness: `None` and the empty
string both select the fallback). -/
def target_dir (root : FsPath) (toi : Option (List Char)) : FsPath :=
  match toi with
  | some t => if t = [] then root ++ [unorganisedName] else root ++ [t]
  | none => root ++ [unorganisedName]

/-- Embedding of `_gen_filename` (lines 145–146) with the fresh `uuid.uuid4()` string
supplied as `u`. -/
def _gen_filename (u : List Char) (suffix : List Char) : List Char :=
  u ++ suffix

/-- The path `shutil.move` returns (lines 125–132): with renaming the
destination is `target_dir / _gen_filename(suffix)`; without, the
destination is the directory and the move lands at
`target_dir / basename(src)`.  `resolve()` is the identity here. -/
def newPath (root : FsPath) (rename : Bool) (img : MatchResult) (u : List Char) : FsPath :=
  target_dir root img.toi ++
    [if rename then _gen_filename u (pySuffix (baseName img.file_path))
     else baseName img.file_path]

/-- The `for idx, img in enumerate(images)` loop of `_move_images`
(lines 116–140), with per-index filesystem outcomes `fs` and generated
unique names `gen`. -/
def moveLoop (root : FsPath) (rename : Bool) (fs : Nat → FsOut) (gen : Nat → List Char) :
    List MatchResult → Nat → World → (List MoveSuccess × List MoveError) × World
  | [], _, w => (([], []), w)
  | img :: rest, idx, w =>
    match fs idx with
    | FsOut.preExc e =>
      let r := moveLoop root rename fs gen rest (idx + 1) w
      ((r.1.1, { old_filepath := img.file_path, error := e } :: r.1.2), r.2)
    | FsOut.moved =>
      let np := newPath root rename img (gen idx)
      let w1 : World :=
        { w with mutations := w.mutations + 2, moves := w.moves ++ [(img.file_path, np)] }
      let r := moveLoop root rename fs gen rest (idx + 1) w1
      (({ new_filepath := np, old_filepath := img.file_path } :: r.1.1, r.1.2), r.2)
    | FsOut.collision =>
      let w1 : World := { w with mutations := w.mutations + 1, log := w.log ++ [collisionMsg] }
      let r := moveLoop root rename fs gen rest (idx + 1) w1
      (r.1, r.2)
    | FsOut.moveExc e =>
      let w1 : World := { w with mutations := w.mutations + 1 }
      let r := moveLoop root rename fs gen rest (idx + 1) w1
      ((r.1.1, { old_filepath := img.file_path, error := e } :: r.1.2), r.2)

/-- Embedding of `_move_images` (lines 112–142). -/
def _move_images (images : List MatchResult) (root : FsPath) (rename : Bool)
    (fs : Nat → FsOut) (gen : Nat → List Char) (w : World) :
    (List MoveSuccess × List MoveError) × World :=
  moveLoop root rename fs gen images 0 w

/-- Number of collision outcomes among `n` consecutive loop indices
starting at `idx`. -/
def collCount (fs : Nat → FsOut) (idx : Nat) : Nat → Nat
  | 0 => 0
  | n + 1 => (if fs idx = FsOut.collision then 1 else 0) + collCount fs (idx + 1) n

/-- World-independent characterisation of the success records the move
loop produces: one per image whose move succeeded. -/
def succRecords (root : FsPath) (rename : Bool) (fs : Nat → FsOut) (gen : Nat → List Char) :
    List MatchResult → Nat → List MoveSuccess
  | [], _ => []
  | img :: rest, idx =>
    match fs idx with
    | FsOut.moved =>
      { new_filepath := newPath root rename img (gen idx), old_filepath := img.file_path }
        :: succRecords root rename fs gen rest (idx + 1)
    | _ => succRecords root rename fs gen rest (idx + 1)

/-- World-independent characterisation of the error records the move loop
produces: one per image whose iteration raised an exception other than the
collision `shutil.Error`. -/
def errRecords (fs : Nat → FsOut) : List MatchResult → Nat → List MoveError
  | [], _ => []
  | img :: rest, idx =>
    match fs idx with
    | FsOut.preExc e => { old_filepath := img.file_path, error := e } :: errRecords fs rest (idx + 1)
    | FsOut.moveExc e => { old_filepath := img.file_path, error := e } :: errRecords fs rest (idx + 1)
    | _ => errRecords fs rest (idx + 1)

/-- World-independent characterisation of the (old, new) moves the loop
performs on the filesystem. -/
def movedPairs (root : FsPath) (rename : Bool) (fs : Nat → FsOut) (gen : Nat → List Char) :
    List MatchResult → Nat → List (FsPath × FsPath)
  | [], _ => []
  | img :: rest, idx =>
    match fs idx with
    | FsOut.moved =>
      (img.file_path, newPath root rename img (gen idx))
        :: movedPairs root rename fs gen rest (idx + 1)
    | _ => movedPairs root rename fs gen rest (idx + 1)

/-! ## Argument validation (`_validate_args`, lines 181–216) and
`execute` (lines 227–278) -/

/-- The argument dictionary passed to `_validate_args`.  The Python
runtime `type(...) is not str / bool` checks always pass here because the
embedding is typed. -/
structure Args where
  root_dir : List Char
  verbose : Bool
  rename_files : Bool
  meta_type : List Char
  tag_type : List Char
  tag_info_search : List Char
deriving DecidableEq, Repr

def invalidRootMsg : List Char := ("Invalid root path. Aborting attempt.").data
def invalidMetaMsg : List Char := ("Invalid meta type option. Aborting attempt.").data
def invalidTagMsg : List Char := ("Invalid tag type option. Aborting attempt.").data
def invalidSearchMsg : List Char := ("Invalid tag search option. Aborting attempt.").data
def notFoundMsg : List Char := ("Root directory was not found. Aborting attempt.").data

/-- Embedding of `_validate_args` (lines 181–216).  Each check is guarded by Python
truthiness of the argument (the empty string skips the check and the
upper-casing); `Except.error` models the raised `ValueError`. -/
def _validate_args (a : Args) : Except (List Char) Args :=
  if a.root_dir ≠ [] ∧ a.root_dir.head? = some '.' then Except.error invalidRootMsg
  else if a.meta_type ≠ [] ∧ pyUpper a.meta_type ∉ [("IPTC").data] then
    Except.error invalidMetaMsg
  else if a.tag_type ≠ [] ∧ pyUpper a.tag_type ∉ [("KEYWORDS").data] then
    Except.error invalidTagMsg
  else if a.tag_info_search ≠ [] ∧ pyUpper a.tag_info_search ∉ [("YEAR").data] then
    Except.error invalidSearchMsg
  else Except.ok
    { a with
      meta_type := if a.meta_type ≠ [] then pyUpper a.meta_type else a.meta_type
      tag_type := if a.tag_type ≠ [] then pyUpper a.tag_type else a.tag_type
      tag_info_search :=
        if a.tag_info_search ≠ [] then pyUpper a.tag_info_search else a.tag_info_search }

/-- The external world `execute` runs against: whether the root path
resolves (`Path.resolve(strict=True)`), the resolved root path, the
regular files the `rglob` walk finds under it, the metadata tool's output
per file, and the filesystem / uuid oracles for the move loop. -/
structure Env where
  rootExists : Bool
  root : FsPath
  found : List FsPath
  tool : FsPath → ToolOut
  fs : Nat → FsOut
  gen : Nat → List Char

/-- How a run of `execute` ends: a caught error printed to the console
(`FileNotFoundError` / `ValueError` handlers, lines 275–278), or normal
completion with the two result collections. -/
inductive ExecOutcome where
  | printedMsg (msg : List Char)
  | completed (moved : List MoveSuccess) (move_failed : List MoveError)
deriving DecidableEq, Repr

/-- The eight `_v` calls of lines 261–274, which unconditionally append to
the log file (console echo is gated by verbosity; the interpolated message
text is abstracted to fixed markers — no claim inspects it). -/
def runLogEntries : List (List Char) :=
  [("found count").data, ("excluded count").data, ("found list").data,
   ("excluded list").data, ("tags read").data, ("tags of interest").data,
   ("moved files").data, ("failed moves").data]

/-- Embedding of `execute` (lines 227–278).  `Except.error ()` models an uncaught
exception crashing the run: the `UnboundLocalError` escaping
`find_target_tags`, or the `TypeError` of calling the `None` returned by
`_mode_selector` for an unmapped (meta, tag) pair. -/
def execute (root_dir : List Char) (verbose : Bool) (rename_files : Bool)
    (meta_type : List Char) (tag_type : List Char) (tag_info_search : List Char)
    (env : Env) (w : World) : Except Unit (World × ExecOutcome) :=
  match _validate_args
      { root_dir := root_dir, verbose := verbose, rename_files := rename_files,
        meta_type := meta_type, tag_type := tag_type,
        tag_info_search := tag_info_search } with
  | Except.error msg => Except.ok (w, ExecOutcome.printedMsg msg)
  | Except.ok cleaned =>
    if env.rootExists then
      let fe := _get_files env.found
      if cleaned.meta_type = ("IPTC").data ∧ cleaned.tag_type = ("KEYWORDS").data then
        let results := _get_iptc_keywords fe.1 env.tool
        match find_target_tags results cleaned.tag_info_search with
        | Except.error _ => Except.error ()
        | Except.ok image_matches =>
          let mr := _move_images image_matches env.root rename_files env.fs env.gen w
          let w2 : World := { mr.2 with log := mr.2.log ++ runLogEntries }
          Except.ok (w2, ExecOutcome.completed mr.1.1 mr.1.2)
      else Except.error ()
    else Except.ok (w, ExecOutcome.printedMsg notFoundMsg)

example : pySuffix ("a.jpg").data = (".jpg").data := by decide
example : pySuffix ("a.").data = [] := by decide
example : pySuffix (".bashrc").data = [] := by decide
example : pySuffix ("a.tar.gz").data = (".gz").data := by decide
example : isSupported [("x").data, ("b.JpG").data] = true := by decide
example : isSupported [("x").data, ("b.txt").data] = false := by decide

/-! ## Lemmas about the Tag Matcher -/

/-- On a non-empty tag list the inner scan loop always leaves the `match`
variable bound, to exactly the first-match-wins token of that list —
whatever state the variable was in before. -/
theorem scanTags_of_ne_nil :
    ∀ (tags : List (List Char)), tags ≠ [] → ∀ mv,
      scanTags tags mv = some (firstMatchToken tags)
  | [], h, _ => absurd rfl h
  | t :: rest, _, mv => by
    simp only [scanTags, firstMatchToken]
    cases hr : reSearchDate t with
    | some tok => rfl
    | none =>
      cases rest with
      | nil => rfl
      | cons a b => exact scanTags_of_ne_nil (a :: b) (by simp) (some none)

/-- When every file has a non-empty tag list, the matcher loop returns one
record per file, in order, each token computed from that file's own tags. -/
theorem fttLoop_of_tags_ne_nil :
    ∀ (files : List TagRead), (∀ f ∈ files, f.tags ≠ []) → ∀ mv,
      fttLoop files mv = Except.ok (files.map fun f =>
        { file_path := f.file_path, toi := firstMatchToken f.tags, errors := [] })
  | [], _, _ => rfl
  | f :: rest, h, mv => by
    have h1 : f.tags ≠ [] := h f (by simp)
    have h2 : ∀ g ∈ rest, g.tags ≠ [] := fun g hg => h g (by simp [hg])
    simp only [fttLoop, scanTags_of_ne_nil f.tags h1 mv,
      fttLoop_of_tags_ne_nil rest h2 (some (firstMatchToken f.tags)), List.map]

/-- Whenever the matcher loop returns normally, it returns exactly one
record per input file. -/
theorem fttLoop_length :
    ∀ (files : List TagRead) (mv) (l : List MatchResult),
      fttLoop files mv = Except.ok l → l.length = files.length
  | [], _, l, h => by
    simp only [fttLoop, Except.ok.injEq] at h
    rw [← h]; rfl
  | f :: rest, mv, l, h => by
    simp only [fttLoop] at h
    split at h
    · exact absurd h (by simp)
    · rename_i m hs
      split at h
      · rename_i rs hr
        simp only [Except.ok.injEq] at h
        rw [← h]
        simp [fttLoop_length rest (some m) rs hr]
      · exact absurd h (by simp)

/-! ## Claims C2, C3, C10 -/

/-- C2 counterexample: the claim says each file's token depends on that
file's own tag text only.  But the loop variable `match` is function-scoped:
file `b.png`, whose tag list is empty, receives the token `"1984"` read from
the *previous* file's tags, while the same file alone makes the run crash
with `UnboundLocalError` — so its result is not a function of its own tags. -/
theorem matcher_crossfile_dependence :
    find_target_tags
        [{ file_path := [("a.jpg").data], tags := [("x date 1984").data], errors := [] },
         { file_path := [("b.png").data], tags := [], errors := [] }] (("YEAR").data)
      = Except.ok
        [{ file_path := [("a.jpg").data], toi := some (("1984").data), errors := [] },
         { file_path := [("b.png").data], toi := some (("1984").data), errors := [] }]
    ∧ find_target_tags
        [{ file_path := [("b.png").data], tags := [], errors := [] }] (("YEAR").data)
      = Except.error () := by
  exact ⟨rfl, rfl⟩

/-- C2 (amended): `find_target_tags` is deterministic and returns one
`MatchResult` per input file, preserving order; *provided every file's tag
list is non-empty*, each file's token is a pure function of that file's own
tags, first matching tag wins.  (A file with an empty tag list instead
reuses the `match` state left by the preceding files, or crashes the run.) -/
theorem matcher_pure_on_nonempty_tags (files : List TagRead)
    (h : ∀ f ∈ files, f.tags ≠ []) :
    find_target_tags files (("YEAR").data)
      = Except.ok (files.map fun f =>
          { file_path := f.file_path, toi := firstMatchToken f.tags, errors := [] }) := by
  unfold find_target_tags
  rw [if_pos rfl]
  exact fttLoop_of_tags_ne_nil files h none

/-- Witness for `matcher_pure_on_nonempty_tags` at a concrete two-file
batch. -/
theorem matcher_pure_on_nonempty_tags_witness :
    (∀ f ∈ [({ file_path := [("a.jpg").data], tags := [("x date 1984").data],
               errors := [] } : TagRead),
            ({ file_path := [("c.tif").data], tags := [("no match here").data],
               errors := [] } : TagRead)], f.tags ≠ [])
    ∧ find_target_tags
        [{ file_path := [("a.jpg").data], tags := [("x date 1984").data], errors := [] },
         { file_path := [("c.tif").data], tags := [("no match here").data], errors := [] }]
        (("YEAR").data)
      = Except.ok
        [{ file_path := [("a.jpg").data], toi := some (("1984").data), errors := [] },
         { file_path := [("c.tif").data], toi := none, errors := [] }] :=
  ⟨by decide,
   matcher_pure_on_nonempty_tags
     [{ file_path := [("a.jpg").data], tags := [("x date 1984").data], errors := [] },
      { file_path := [("c.tif").data], tags := [("no match here").data], errors := [] }]
     (by decide)⟩

/-- C3 (code bug): a file with an empty tag list — which `exiv2`
produces whenever an image carries no IPTC data — makes `find_target_tags`
evaluate the unbound loop variable `match`: the run crashes with
`UnboundLocalError` instead of recording token `none` and routing the file
to `unorganised`. -/
theorem matcher_empty_taglist_raises :
    find_target_tags
        [{ file_path := [("b.png").data], tags := [], errors := [] }] (("YEAR").data)
      = Except.error () := rfl

/-- C10: for any `tag_info_search` other than `"YEAR"` the whole body
of `find_target_tags` is skipped and the empty list is returned, whatever
the input files; under `tag_info_search = "YEAR"` every normal return has
exactly one `MatchResult` per input file. -/
theorem find_target_tags_year_gate (files : List TagRead) (tis : List Char)
    (h : tis ≠ ("YEAR").data) :
    find_target_tags files tis = Except.ok []
    ∧ ∀ l, find_target_tags files (("YEAR").data) = Except.ok l →
        l.length = files.length := by
  constructor
  · unfold find_target_tags
    rw [if_neg h]
  · intro l hl
    unfold find_target_tags at hl
    rw [if_pos rfl] at hl
    exact fttLoop_length files none l hl

/-- Witness for `find_target_tags_year_gate`: with the (validated but
differently-cased) selector `"year"`, a non-empty batch yields the empty
result list. -/
theorem find_target_tags_year_gate_witness :
    (("year").data ≠ ("YEAR").data)
    ∧ find_target_tags
        [{ file_path := [("c.tif").data], tags := [("date 1999").data], errors := [] }]
        (("year").data)
      = Except.ok [] :=
  ⟨by decide,
   (find_target_tags_year_gate
      [{ file_path := [("c.tif").data], tags := [("date 1999").data], errors := [] }]
      (("year").data) (by decide)).1⟩

/-! ## Lemmas about File Discovery -/

/-- If `rfindDot` finds nothing, the list has no `'.'`. -/
theorem not_mem_of_rfindDot_none : ∀ (l : List Char), rfindDot l = none → '.' ∉ l
  | [], _ => by simp
  | c :: rest, h => by
    simp only [rfindDot] at h
    cases hr : rfindDot rest with
    | some i => rw [hr] at h; exact absurd h (by simp)
    | none =>
      rw [hr] at h
      by_cases hc : c = '.'
      · rw [if_pos hc] at h; exact absurd h (by simp)
      · intro hmem
        cases hmem with
        | head => exact hc rfl
        | tail _ hm => exact not_mem_of_rfindDot_none rest hr hm

/-- The index `rfindDot` returns points at a `'.'` with no `'.'` after it. -/
theorem rfindDot_drop : ∀ (l : List Char) (i : Nat), rfindDot l = some i →
    ∃ e, l.drop i = '.' :: e ∧ '.' ∉ e
  | [], i, h => by simp [rfindDot] at h
  | c :: rest, i, h => by
    simp only [rfindDot] at h
    cases hr : rfindDot rest with
    | some k =>
      rw [hr] at h
      simp only [Option.some.injEq] at h
      subst h
      obtain ⟨e, he, hne⟩ := rfindDot_drop rest k hr
      exact ⟨e, by simpa using he, hne⟩
    | none =>
      rw [hr] at h
      by_cases hc : c = '.'
      · rw [if_pos hc] at h
        simp only [Option.some.injEq] at h
        subst h
        exact ⟨rest, by simp [hc], not_mem_of_rfindDot_none rest hr⟩
      · rw [if_neg hc] at h; exact absurd h (by simp)

/-- Shape of a pathlib suffix: empty, or a dot followed by a non-empty
dot-free extension. -/
theorem pySuffix_shape (n : List Char) :
    pySuffix n = [] ∨ ∃ e, pySuffix n = '.' :: e ∧ e ≠ [] ∧ '.' ∉ e := by
  cases hr : rfindDot n with
  | none => exact Or.inl (by simp [pySuffix, hr])
  | some i =>
    have hps : pySuffix n = if 0 < i ∧ i < n.length - 1 then n.drop i else [] := by
      simp [pySuffix, hr]
    by_cases hg : 0 < i ∧ i < n.length - 1
    · rw [hps, if_pos hg]
      obtain ⟨e, he, hne⟩ := rfindDot_drop n i hr
      refine Or.inr ⟨e, he, ?_, hne⟩
      have hlen : (n.drop i).length = n.length - i := List.length_drop i n
      rw [he] at hlen
      intro hE
      subst hE
      simp at hlen
      omega
    · rw [hps, if_neg hg]; exact Or.inl rfl

/-- Removing leading dots from a dot-free list changes nothing. -/
theorem dropWhile_dot_of_not_mem (U : List Char) (h : '.' ∉ U) :
    U.dropWhile (fun c => c = '.') = U := by
  cases U with
  | nil => rfl
  | cons c rest =>
    have hc : ¬ (c = '.') := fun hc => h (hc ▸ List.mem_cons_self c rest)
    simp [List.dropWhile_cons, hc]

/-- Python `str.strip(".")` of a dot plus a dot-free tail is the tail. -/
theorem stripDots_dot_cons (U : List Char) (h : '.' ∉ U) :
    stripDots ('.' :: U) = U := by
  have h1 : ('.' :: U).dropWhile (fun c => c = '.') = U := by
    rw [List.dropWhile_cons, if_pos (by simp)]
    exact dropWhile_dot_of_not_mem U h
  unfold stripDots
  rw [h1, dropWhile_dot_of_not_mem U.reverse (by simpa using h), List.reverse_reverse]

/-- Upper-casing never turns another character into a dot. -/
theorem toUpper_ne_dot {c : Char} (h : c ≠ '.') : c.toUpper ≠ '.' := by
  simp only [Char.toUpper]
  split
  · rename_i hn
    intro hc
    have hv : (c.toNat - 32).isValidChar := Or.inl (by omega)
    have h46 : (Char.ofNat (c.toNat - 32)).toNat = c.toNat - 32 := by
      rw [Char.ofNat, dif_pos hv]
      rfl
    have := congrArg Char.toNat hc
    rw [h46] at this
    have hd : Char.toNat '.' = 46 := rfl
    rw [hd] at this
    omega
  · exact h

/-- The classification test of line 64 agrees with the specification's
"extension matches the allow-list case-insensitively". -/
theorem isSupported_eq_spec (p : FsPath) : isSupported p = specSupportedExt p := by
  unfold isSupported specSupportedExt
  rcases pySuffix_shape (baseName p) with h | ⟨e, he, hne, hnd⟩
  · rw [h]; rfl
  · have hup : pyUpper ('.' :: e) = '.' :: pyUpper e := by
      simp [pyUpper, List.map_cons]
    have hnd2 : '.' ∉ pyUpper e := by
      intro hm
      obtain ⟨c, hc, hcu⟩ := List.mem_map.mp hm
      exact toUpper_ne_dot (fun hceq => hnd (hceq ▸ hc)) hcu
    rw [he, hup, stripDots_dot_cons (pyUpper e) hnd2]
    have hext : extOfSuffix ('.' :: e) = e := by simp [extOfSuffix]
    rw [hext]

/-- List `count` splits across a boolean partition of a list. -/
theorem count_filter_partition (q : FsPath → Bool) (l : List FsPath) (p : FsPath) :
    ((l.filter fun x => q x).count p) + ((l.filter fun x => ¬ q x).count p)
      = l.count p := by
  by_cases hq : q p = true
  · rw [List.count_filter hq]
    have h0 : (l.filter fun x => ¬ q x).count p = 0 := by
      rw [List.count_eq_zero]
      intro hm
      have h2 := (List.mem_filter.mp hm).2
      simp [hq] at h2
    rw [h0]
    omega
  · have h0 : (l.filter fun x => q x).count p = 0 := by
      rw [List.count_eq_zero]
      intro hm
      exact hq (List.mem_filter.mp hm).2
    rw [h0, List.count_filter (by simp [hq])]
    omega

/-! ## Claims C7, C8 -/

/-- C7: `_get_files` partitions the regular files found under the root
into a complete, non-overlapping cover: every file occurs in the two output
lists exactly as often as it occurred in the input, and membership in the
included (resp. excluded) list is equivalent to having (resp. not having)
an extension on the fixed allow-list, case-insensitively. -/
theorem discovery_partition (found : List FsPath) :
    (∀ p : FsPath,
      ((_get_files found).1.count p) + ((_get_files found).2.count p)
        = found.count p)
    ∧ (∀ p : FsPath, p ∈ (_get_files found).1 ↔ p ∈ found ∧ specSupportedExt p = true)
    ∧ (∀ p : FsPath, p ∈ (_get_files found).2 ↔ p ∈ found ∧ specSupportedExt p = false) := by
  refine ⟨fun p => count_filter_partition isSupported found p, fun p => ?_, fun p => ?_⟩
  · rw [show (_get_files found).1 = found.filter (fun x => isSupported x) from rfl]
    simp [List.mem_filter, isSupported_eq_spec]
  · rw [show (_get_files found).2 = found.filter (fun x => ¬ isSupported x) from rfl]
    simp [List.mem_filter, isSupported_eq_spec]

/-- Witness instantiating `discovery_partition` on a concrete three-file
tree. -/
theorem discovery_partition_witness :
    [[("pics").data, ("a.JPG").data]]
      = (_get_files [[("pics").data, ("a.JPG").data], [("pics").data, ("n.txt").data],
          [("pics").data, ("b.tiff").data]]).1.filter
            (fun p => decide (p ∈ [[("pics").data, ("a.JPG").data]]))
    ∧ (∀ p : FsPath,
        p ∈ (_get_files [[("pics").data, ("a.JPG").data], [("pics").data, ("n.txt").data],
            [("pics").data, ("b.tiff").data]]).1
          ↔ p ∈ [[("pics").data, ("a.JPG").data], [("pics").data, ("n.txt").data],
              [("pics").data, ("b.tiff").data]] ∧ specSupportedExt p = true) :=
  ⟨by decide,
   (discovery_partition [[("pics").data, ("a.JPG").data], [("pics").data, ("n.txt").data],
      [("pics").data, ("b.tiff").data]]).2.1⟩

/-- C8: each metadata-tool stdout line is recorded as its
whitespace-separated fields from the fourth onward joined by single spaces;
a line with fewer than four fields yields the empty string; stderr is
recorded verbatim, one record per file. -/
theorem metadata_reader_parsing (files : List FsPath) (tool : FsPath → ToolOut) :
    _get_iptc_keywords files tool
      = files.map (fun f =>
          { file_path := f,
            tags := ((tool f).lines).map (fun line => joinSp ((pySplitWs line).drop 3)),
            errors := (tool f).stderr })
    ∧ ∀ line : List Char, (pySplitWs line).length < 4 → parseLine line = [] := by
  constructor
  · rfl
  · intro line h
    unfold parseLine
    rw [List.drop_eq_nil_of_le (by omega)]
    rfl

/-- Witness for `metadata_reader_parsing`: a three-field line parses to the
empty tag string. -/
theorem metadata_reader_parsing_witness :
    (pySplitWs (("a b c").data)).length < 4 ∧ parseLine (("a b c").data) = [] :=
  ⟨by decide,
   (metadata_reader_parsing [] (fun _ => ⟨[], []⟩)).2 (("a b c").data) (by decide)⟩

/-! ## Lemmas about the Mover -/

/-- The move loop's success list, error list and performed moves do not
depend on the incoming world state and are exactly the per-image records:
a success record iff the move succeeded, an error record iff the iteration
raised a non-collision exception, a performed move iff the move succeeded. -/
theorem moveLoop_characterisation (root : FsPath) (rename : Bool) (fs : Nat → FsOut)
    (gen : Nat → List Char) :
    ∀ (images : List MatchResult) (idx : Nat) (w : World),
      (moveLoop root rename fs gen images idx w).1.1
          = succRecords root rename fs gen images idx
      ∧ (moveLoop root rename fs gen images idx w).1.2 = errRecords fs images idx
      ∧ (moveLoop root rename fs gen images idx w).2.moves
          = w.moves ++ movedPairs root rename fs gen images idx
  | [], idx, w => by simp [moveLoop, succRecords, errRecords, movedPairs]
  | img :: rest, idx, w => by
    have ih := moveLoop_characterisation root rename fs gen rest (idx + 1)
    cases hfs : fs idx <;>
      simp [moveLoop, succRecords, errRecords, movedPairs, hfs, ih]

/-- Per batch: successes + errors + collisions account for every image
exactly once. -/
theorem records_length (root : FsPath) (rename : Bool) (fs : Nat → FsOut)
    (gen : Nat → List Char) :
    ∀ (images : List MatchResult) (idx : Nat),
      (succRecords root rename fs gen images idx).length
        + (errRecords fs images idx).length
        + collCount fs idx images.length = images.length
  | [], _ => rfl
  | img :: rest, idx => by
    have ih := records_length root rename fs gen rest (idx + 1)
    cases hfs : fs idx <;>
      simp [succRecords, errRecords, collCount, hfs] <;> omega

/-- Every old path in the success list belongs to an image whose move
succeeded. -/
theorem succRecords_mem (root : FsPath) (rename : Bool) (fs : Nat → FsOut)
    (gen : Nat → List Char) :
    ∀ (images : List MatchResult) (idx : Nat) (p : FsPath),
      p ∈ (succRecords root rename fs gen images idx).map (fun s => s.old_filepath) →
      ∃ j, ∃ h : j < images.length,
        (images.get ⟨j, h⟩).file_path = p ∧ fs (idx + j) = FsOut.moved
  | [], _, _, h => by simp [succRecords] at h
  | img :: rest, idx, p, h => by
    cases hfs : fs idx with
    | moved =>
      simp only [succRecords, hfs, List.map_cons, List.mem_cons] at h
      rcases h with heq | hmem
      · exact ⟨0, by simp, by simpa using heq.symm, by simpa using hfs⟩
      · obtain ⟨j, hj, hp, hmov⟩ := succRecords_mem root rename fs gen rest (idx + 1) p hmem
        refine ⟨j + 1, Nat.succ_lt_succ hj, hp, ?_⟩
        have harith : idx + (j + 1) = (idx + 1) + j := by omega
        rw [harith]
        exact hmov
    | preExc e =>
      simp only [succRecords, hfs] at h
      obtain ⟨j, hj, hp, hmov⟩ := succRecords_mem root rename fs gen rest (idx + 1) p h
      refine ⟨j + 1, Nat.succ_lt_succ hj, hp, ?_⟩
      have harith : idx + (j + 1) = (idx + 1) + j := by omega
      rw [harith]
      exact hmov
    | collision =>
      simp only [succRecords, hfs] at h
      obtain ⟨j, hj, hp, hmov⟩ := succRecords_mem root rename fs gen rest (idx + 1) p h
      refine ⟨j + 1, Nat.succ_lt_succ hj, hp, ?_⟩
      have harith : idx + (j + 1) = (idx + 1) + j := by omega
      rw [harith]
      exact hmov
    | moveExc e =>
      simp only [succRecords, hfs] at h
      obtain ⟨j, hj, hp, hmov⟩ := succRecords_mem root rename fs gen rest (idx + 1) p h
      refine ⟨j + 1, Nat.succ_lt_succ hj, hp, ?_⟩
      have harith : idx + (j + 1) = (idx + 1) + j := by omega
      rw [harith]
      exact hmov

/-- Every old path among the performed moves belongs to an image whose move
succeeded. -/
theorem movedPairs_mem (root : FsPath) (rename : Bool) (fs : Nat → FsOut)
    (gen : Nat → List Char) :
    ∀ (images : List MatchResult) (idx : Nat) (p : FsPath),
      p ∈ (movedPairs root rename fs gen images idx).map Prod.fst →
      ∃ j, ∃ h : j < images.length,
        (images.get ⟨j, h⟩).file_path = p ∧ fs (idx + j) = FsOut.moved
  | [], _, _, h => by simp [movedPairs] at h
  | img :: rest, idx, p, h => by
    cases hfs : fs idx with
    | moved =>
      simp only [movedPairs, hfs, List.map_cons, List.mem_cons] at h
      rcases h with heq | hmem
      · exact ⟨0, by simp, by simpa using heq.symm, by simpa using hfs⟩
      · obtain ⟨j, hj, hp, hmov⟩ := movedPairs_mem root rename fs gen rest (idx + 1) p hmem
        refine ⟨j + 1, Nat.succ_lt_succ hj, hp, ?_⟩
        have harith : idx + (j + 1) = (idx + 1) + j := by omega
        rw [harith]
        exact hmov
    | preExc e =>
      simp only [movedPairs, hfs] at h
      obtain ⟨j, hj, hp, hmov⟩ := movedPairs_mem root rename fs gen rest (idx + 1) p h
      refine ⟨j + 1, Nat.succ_lt_succ hj, hp, ?_⟩
      have harith : idx + (j + 1) = (idx + 1) + j := by omega
      rw [harith]
      exact hmov
    | collision =>
      simp only [movedPairs, hfs] at h
      obtain ⟨j, hj, hp, hmov⟩ := movedPairs_mem root rename fs gen rest (idx + 1) p h
      refine ⟨j + 1, Nat.succ_lt_succ hj, hp, ?_⟩
      have harith : idx + (j + 1) = (idx + 1) + j := by omega
      rw [harith]
      exact hmov
    | moveExc e =>
      simp only [movedPairs, hfs] at h
      obtain ⟨j, hj, hp, hmov⟩ := movedPairs_mem root rename fs gen rest (idx + 1) p h
      refine ⟨j + 1, Nat.succ_lt_succ hj, hp, ?_⟩
      have harith : idx + (j + 1) = (idx + 1) + j := by omega
      rw [harith]
      exact hmov

/-- The last component of a path built as `dir ++ [name]` is `name`. -/
theorem getLastD_append_single :
    ∀ (l : List (List Char)) (x d : List Char), (l ++ [x]).getLastD d = x
  | [], _, _ => rfl
  | a :: rest, x, d => by
    rw [List.cons_append, List.getLastD_cons]
    exact getLastD_append_single rest x a

/-- A run of non-matching tags in front does not change the first-match
token. -/
theorem firstMatchToken_append_of_none :
    ∀ (pre rest : List (List Char)), (∀ t ∈ pre, reSearchDate t = none) →
      firstMatchToken (pre ++ rest) = firstMatchToken rest
  | [], _, _ => rfl
  | t :: pre, rest, h => by
    have ht := h t (by simp)
    simp only [List.cons_append, firstMatchToken, ht]
    exact firstMatchToken_append_of_none pre rest (fun s hs => h s (by simp [hs]))

/-! ## Claims C1, C5, C6 -/

/-- C1 counterexample: the claim says every `MatchResult` yields
exactly one recorded outcome, "never neither".  A single-image batch whose
move raises the collision `shutil.Error` records nothing at all: both the
successes list and the errors list come back empty (the inner `except
shutil.Error` handler only logs). -/
theorem mover_collision_records_nothing :
    (_move_images
        [{ file_path := [("a.jpg").data], toi := some (("1984").data), errors := [] }]
        [("root").data] false (fun _ => FsOut.collision) (fun _ => [])
        { log := [], mutations := 0, moves := [] }).1
      = ([], []) := rfl

/-- C1 (amended): one tag-read record per included file; one
`MatchResult` per tag-read record whenever the matcher returns; and per
`MatchResult` *at most* one recorded move outcome — exactly one (a success
record or an error record, never both) unless the move raised the collision
`shutil.Error`, which is recorded in neither list: successes + errors +
collisions account for every image exactly once. -/
theorem pipeline_one_record_per_stage (files : List FsPath) (tool : FsPath → ToolOut)
    (images : List MatchResult) (root : FsPath) (rename : Bool) (fs : Nat → FsOut)
    (gen : Nat → List Char) (w : World) :
    (_get_iptc_keywords files tool).length = files.length
    ∧ (∀ (rs : List TagRead) (l : List MatchResult),
        find_target_tags rs (("YEAR").data) = Except.ok l → l.length = rs.length)
    ∧ (_move_images images root rename fs gen w).1.1.length
        + (_move_images images root rename fs gen w).1.2.length
        + collCount fs 0 images.length = images.length := by
  refine ⟨by simp [_get_iptc_keywords], ?_, ?_⟩
  · intro rs l hl
    unfold find_target_tags at hl
    rw [if_pos rfl] at hl
    exact fttLoop_length rs none l hl
  · obtain ⟨h1, h2, _⟩ := moveLoop_characterisation root rename fs gen images 0 w
    rw [show (_move_images images root rename fs gen w).1.1
          = succRecords root rename fs gen images 0 from h1,
        show (_move_images images root rename fs gen w).1.2
          = errRecords fs images 0 from h2]
    exact records_length root rename fs gen images 0

/-- Witness for `pipeline_one_record_per_stage`: one match record for one
tag-read record on a concrete batch. -/
theorem pipeline_one_record_per_stage_witness :
    find_target_tags
        [{ file_path := [("a.jpg").data], tags := [("date 1984").data], errors := [] }]
        (("YEAR").data)
      = Except.ok [{ file_path := [("a.jpg").data], toi := some (("1984").data), errors := [] }]
    ∧ ([({ file_path := [("a.jpg").data], toi := some (("1984").data),
           errors := [] } : MatchResult)]).length
        = ([({ file_path := [("a.jpg").data], tags := [("date 1984").data],
               errors := [] } : TagRead)]).length :=
  ⟨rfl,
   (pipeline_one_record_per_stage [] (fun _ => ⟨[], []⟩) [] [] false
      (fun _ => FsOut.moved) (fun _ => []) { log := [], mutations := 0, moves := [] }).2.1
     [{ file_path := [("a.jpg").data], tags := [("date 1984").data], errors := [] }]
     [{ file_path := [("a.jpg").data], toi := some (("1984").data), errors := [] }] rfl⟩

/-- C5 counterexample: the claim quantifies over any file whose tags
*include* "Location DATE: 1984 Paris".  If an earlier tag already matches
the date pattern, first-match-wins picks it instead: with tags
`["DATE 2000x", "Location DATE: 1984 Paris"]` the extracted token is
`"2000"`, not `"1984"`. -/
theorem year_scenario_counterexample :
    find_target_tags
        [{ file_path := [("a.jpg").data],
           tags := [("DATE 2000x").data, ("Location DATE: 1984 Paris").data],
           errors := [] }]
        (("YEAR").data)
      = Except.ok
        [{ file_path := [("a.jpg").data], toi := some (("2000").data), errors := [] }]
    ∧ (("2000").data ≠ ("1984").data) :=
  ⟨rfl, by decide⟩

/-- C5 (amended): for a file `a.jpg` whose *first* date-matching tag is
"Location DATE: 1984 Paris", the extracted token is `"1984"`; and provided
its move succeeds, the file lands at `<root>/1984/a.jpg` with the rename
flag unset, or `<root>/1984/<generated-id>.jpg` with it set. -/
theorem year_scenario (root dir : FsPath) (pre post : List (List Char)) (u : List Char)
    (w : World) (hpre : ∀ t ∈ pre, reSearchDate t = none) :
    find_target_tags
        [{ file_path := dir ++ [("a.jpg").data],
           tags := pre ++ ("Location DATE: 1984 Paris").data :: post, errors := [] }]
        (("YEAR").data)
      = Except.ok
        [{ file_path := dir ++ [("a.jpg").data], toi := some (("1984").data), errors := [] }]
    ∧ (_move_images
          [{ file_path := dir ++ [("a.jpg").data], toi := some (("1984").data), errors := [] }]
          root false (fun _ => FsOut.moved) (fun _ => u) w).1.1
      = [{ new_filepath := root ++ [("1984").data, ("a.jpg").data],
           old_filepath := dir ++ [("a.jpg").data] }]
    ∧ (_move_images
          [{ file_path := dir ++ [("a.jpg").data], toi := some (("1984").data), errors := [] }]
          root true (fun _ => FsOut.moved) (fun _ => u) w).1.1
      = [{ new_filepath := root ++ [("1984").data, u ++ ((".jpg").data)],
           old_filepath := dir ++ [("a.jpg").data] }] := by
  have hsearch : reSearchDate (("Location DATE: 1984 Paris").data) = some (("1984").data) := by
    decide
  have hbase : baseName (dir ++ [("a.jpg").data]) = ("a.jpg").data :=
    getLastD_append_single dir _ _
  have hsuf : pySuffix (("a.jpg").data) = ((".jpg").data) := by decide
  have ht : target_dir root (some (("1984").data)) = root ++ [("1984").data] := by
    simp only [target_dir]
    rw [if_neg (by decide)]
  refine ⟨?_, ?_, ?_⟩
  · unfold find_target_tags
    rw [if_pos rfl]
    rw [fttLoop_of_tags_ne_nil _ (by
      intro f hf
      rw [List.mem_singleton] at hf
      subst hf
      simp) none]
    simp only [List.map_cons, List.map_nil]
    rw [firstMatchToken_append_of_none pre _ hpre]
    simp only [firstMatchToken, hsearch]
  · show (moveLoop root false (fun _ => FsOut.moved) (fun _ => u)
        [{ file_path := dir ++ [("a.jpg").data], toi := some (("1984").data), errors := [] }]
        0 w).1.1 = _
    simp only [moveLoop, newPath, _gen_filename, moveLoop.eq_1]
    simp [ht, hbase, List.append_assoc]
  · show (moveLoop root true (fun _ => FsOut.moved) (fun _ => u)
        [{ file_path := dir ++ [("a.jpg").data], toi := some (("1984").data), errors := [] }]
        0 w).1.1 = _
    simp only [moveLoop, newPath, _gen_filename, moveLoop.eq_1]
    simp [ht, hbase, hsuf, List.append_assoc]

/-- Witness for `year_scenario` with no preceding tags and a concrete root
and generated name. -/
theorem year_scenario_witness :
    find_target_tags
        [{ file_path := [("pics").data, ("a.jpg").data],
           tags := [("Location DATE: 1984 Paris").data], errors := [] }]
        (("YEAR").data)
      = Except.ok
        [{ file_path := [("pics").data, ("a.jpg").data], toi := some (("1984").data),
           errors := [] }]
    ∧ (_move_images
          [{ file_path := [("pics").data, ("a.jpg").data], toi := some (("1984").data),
             errors := [] }]
          [("pics").data] false (fun _ => FsOut.moved) (fun _ => ("id01").data)
          { log := [], mutations := 0, moves := [] }).1.1
      = [{ new_filepath := [("pics").data, ("1984").data, ("a.jpg").data],
           old_filepath := [("pics").data, ("a.jpg").data] }] := by
  have h := year_scenario [("pics").data] [("pics").data] [] []
    (("id01").data) { log := [], mutations := 0, moves := [] } (by simp)
  exact ⟨h.1, h.2.1⟩

/-- C6: a collision (`shutil.Error`) during one image's move is
non-fatal and purely local: the embedding of `_move_images` returns
normally with that image's file in neither the successes list nor the
performed moves, while every other image is still processed — successes,
errors and collisions together account for the whole batch. -/
theorem collision_nonfatal (images : List MatchResult) (root : FsPath) (rename : Bool)
    (fs : Nat → FsOut) (gen : Nat → List Char) (w : World) (i : Nat)
    (hi : i < images.length) (hcoll : fs i = FsOut.collision)
    (huniq : ∀ j (hj : j < images.length),
      (images.get ⟨j, hj⟩).file_path = (images.get ⟨i, hi⟩).file_path → j = i)
    (hw : w.moves = []) :
    (images.get ⟨i, hi⟩).file_path
        ∉ ((_move_images images root rename fs gen w).1.1.map (fun s => s.old_filepath))
    ∧ (images.get ⟨i, hi⟩).file_path
        ∉ ((_move_images images root rename fs gen w).2.moves.map Prod.fst)
    ∧ (_move_images images root rename fs gen w).1.1.length
        + (_move_images images root rename fs gen w).1.2.length
        + collCount fs 0 images.length = images.length := by
  obtain ⟨h1, h2, h3⟩ := moveLoop_characterisation root rename fs gen images 0 w
  refine ⟨?_, ?_, ?_⟩
  · rw [show (_move_images images root rename fs gen w).1.1
        = succRecords root rename fs gen images 0 from h1]
    intro hmem
    obtain ⟨j, hj, hp, hmov⟩ := succRecords_mem root rename fs gen images 0 _ hmem
    have hji := huniq j hj hp
    subst hji
    rw [Nat.zero_add] at hmov
    rw [hcoll] at hmov
    exact absurd hmov (by simp)
  · rw [show (_move_images images root rename fs gen w).2.moves
        = w.moves ++ movedPairs root rename fs gen images 0 from h3, hw, List.nil_append]
    intro hmem
    obtain ⟨j, hj, hp, hmov⟩ := movedPairs_mem root rename fs gen images 0 _ hmem
    have hji := huniq j hj hp
    subst hji
    rw [Nat.zero_add] at hmov
    rw [hcoll] at hmov
    exact absurd hmov (by simp)
  · rw [show (_move_images images root rename fs gen w).1.1
          = succRecords root rename fs gen images 0 from h1,
        show (_move_images images root rename fs gen w).1.2
          = errRecords fs images 0 from h2]
    exact records_length root rename fs gen images 0

/-- Witness for `collision_nonfatal`: a two-image batch where the second
image's destination collides; the first image is still moved. -/
theorem collision_nonfatal_witness :
    (1 < ([({ file_path := [("a.jpg").data], toi := some (("1984").data),
              errors := [] } : MatchResult),
           ({ file_path := [("b.jpg").data], toi := some (("1984").data),
              errors := [] } : MatchResult)]).length)
    ∧ ((fun k => if k = 1 then FsOut.collision else FsOut.moved) 1 = FsOut.collision)
    ∧ [("b.jpg").data]
        ∉ ((_move_images
            [{ file_path := [("a.jpg").data], toi := some (("1984").data), errors := [] },
             { file_path := [("b.jpg").data], toi := some (("1984").data), errors := [] }]
            [("r").data] false (fun k => if k = 1 then FsOut.collision else FsOut.moved)
            (fun _ => []) { log := [], mutations := 0, moves := [] }).1.1.map
              (fun s => s.old_filepath)) := by
  have h := collision_nonfatal
    [{ file_path := [("a.jpg").data], toi := some (("1984").data), errors := [] },
     { file_path := [("b.jpg").data], toi := some (("1984").data), errors := [] }]
    [("r").data] false (fun k => if k = 1 then FsOut.collision else FsOut.moved)
    (fun _ => []) { log := [], mutations := 0, moves := [] } 1 (by decide) (by decide)
    (by decide) rfl
  exact ⟨by decide, by decide, h.1⟩

/-! ## Claims C4, C9 -/

/-- C4: with arguments that validate, a root directory that fails to
resolve makes `execute` abort at once with the "not found" message: the
returned world is the incoming world unchanged — no log entry, no
filesystem mutation, no move. -/
theorem execute_missing_root (a : Args) (cleaned : Args)
    (hv : _validate_args a = Except.ok cleaned) (env : Env)
    (hroot : env.rootExists = false) (w : World) :
    execute a.root_dir a.verbose a.rename_files a.meta_type a.tag_type a.tag_info_search
        env w
      = Except.ok (w, ExecOutcome.printedMsg notFoundMsg) := by
  unfold execute
  rw [show ({ root_dir := a.root_dir, verbose := a.verbose, rename_files := a.rename_files,
              meta_type := a.meta_type, tag_type := a.tag_type,
              tag_info_search := a.tag_info_search } : Args) = a from rfl]
  rw [hv]
  simp [hroot]

/-- Witness for `execute_missing_root` on concrete arguments and a
non-resolving root. -/
theorem execute_missing_root_witness :
    _validate_args
        { root_dir := ("photos").data, verbose := false, rename_files := false,
          meta_type := ("IPTC").data, tag_type := ("KEYWORDS").data,
          tag_info_search := ("YEAR").data }
      = Except.ok
        { root_dir := ("photos").data, verbose := false, rename_files := false,
          meta_type := ("IPTC").data, tag_type := ("KEYWORDS").data,
          tag_info_search := ("YEAR").data }
    ∧ execute (("photos").data) false false (("IPTC").data) (("KEYWORDS").data)
        (("YEAR").data)
        { rootExists := false, root := [], found := [], tool := fun _ => ⟨[], []⟩,
          fs := fun _ => FsOut.moved, gen := fun _ => [] }
        { log := [], mutations := 0, moves := [] }
      = Except.ok ({ log := [], mutations := 0, moves := [] },
          ExecOutcome.printedMsg notFoundMsg) :=
  ⟨rfl,
   execute_missing_root
     { root_dir := ("photos").data, verbose := false, rename_files := false,
       meta_type := ("IPTC").data, tag_type := ("KEYWORDS").data,
       tag_info_search := ("YEAR").data }
     { root_dir := ("photos").data, verbose := false, rename_files := false,
       meta_type := ("IPTC").data, tag_type := ("KEYWORDS").data,
       tag_info_search := ("YEAR").data }
     rfl
     { rootExists := false, root := [], found := [], tool := fun _ => ⟨[], []⟩,
       fs := fun _ => FsOut.moved, gen := fun _ => [] }
     rfl { log := [], mutations := 0, moves := [] }⟩

/-- C9: a non-empty `root_dir` starting with `'.'` makes `execute`
abort with the "Invalid root path" `ValueError` message, leaving the world
untouched, whatever the environment — in particular even when the path
names an existing directory; an empty `root_dir` skips the root check
entirely (validation succeeds when the remaining selectors are valid). -/
theorem execute_dot_root_aborts (rd : List Char) (hd : rd.head? = some '.')
    (verbose rename : Bool) (mt tt tis : List Char) (env : Env) (w : World) :
    execute rd verbose rename mt tt tis env w
      = Except.ok (w, ExecOutcome.printedMsg invalidRootMsg)
    ∧ ∀ (vb rf : Bool),
        _validate_args
          { root_dir := [], verbose := vb, rename_files := rf, meta_type := ("IPTC").data,
            tag_type := ("KEYWORDS").data, tag_info_search := ("YEAR").data }
        = Except.ok
          { root_dir := [], verbose := vb, rename_files := rf, meta_type := ("IPTC").data,
            tag_type := ("KEYWORDS").data, tag_info_search := ("YEAR").data } := by
  constructor
  · have hne : rd ≠ [] := by
      intro h
      rw [h] at hd
      simp at hd
    have hv : _validate_args
        { root_dir := rd, verbose := verbose, rename_files := rename, meta_type := mt,
          tag_type := tt, tag_info_search := tis } = Except.error invalidRootMsg := by
      unfold _validate_args
      rw [if_pos ⟨hne, hd⟩]
    unfold execute
    rw [hv]
  · intro vb rf
    rfl

/-- Witness for `execute_dot_root_aborts` on the dot-relative path
`"./x"` against an environment whose root does resolve. -/
theorem execute_dot_root_aborts_witness :
    ((("./x").data).head? = some '.')
    ∧ execute (("./x").data) false false (("IPTC").data) (("KEYWORDS").data)
        (("YEAR").data)
        { rootExists := true, root := [], found := [], tool := fun _ => ⟨[], []⟩,
          fs := fun _ => FsOut.moved, gen := fun _ => [] }
        { log := [], mutations := 0, moves := [] }
      = Except.ok ({ log := [], mutations := 0, moves := [] },
          ExecOutcome.printedMsg invalidRootMsg)
    ∧ _validate_args
        { root_dir := [], verbose := true, rename_files := false,
          meta_type := ("IPTC").data, tag_type := ("KEYWORDS").data,
          tag_info_search := ("YEAR").data }
      = Except.ok
        { root_dir := [], verbose := true, rename_files := false,
          meta_type := ("IPTC").data, tag_type := ("KEYWORDS").data,
          tag_info_search := ("YEAR").data } := by
  have h := execute_dot_root_aborts (("./x").data) (by decide) false false
    (("IPTC").data) (("KEYWORDS").data) (("YEAR").data)
    { rootExists := true, root := [], found := [], tool := fun _ => ⟨[], []⟩,
      fs := fun _ => FsOut.moved, gen := fun _ => [] }
    { log := [], mutations := 0, moves := [] }
  exact ⟨by decide, h.1, h.2 true false⟩

end PhotOrganiser
